import Mathlib

/-!
Verification development for the neo4j-backup service
(`config_manager.py`, `backup.py`, `api.py`).

The Python modules are shallowly embedded: JSON dictionaries become
functions `String → Option JValue`, datetimes become minute or second
counts since 1970-01-01, fallible external calls become explicit outcome
parameters, and the persisted settings file is threaded as explicit state.
-/

namespace Neo4jBackup

/-- A JSON value as stored in the settings file (`json.load`/`json.dump`).
Python `None` is `null`. -/
inductive JValue where
  | null : JValue
  | bool : Bool → JValue
  | num : Int → JValue
  | str : String → JValue
deriving DecidableEq

/-- A Python dict with string keys, as a partial map; `none` means the key
is absent from the dict. -/
def Dict : Type := String → Option JValue

/-- Python `d1.copy()` followed by `.update(d2)`: keys of `d2` win. -/
def dictUpdate (d1 d2 : Dict) : Dict := fun k =>
  match d2 k with
  | some v => some v
  | none => d1 k

/-- Python `d[k] = v` on a copied dict. -/
def dictInsert (d : Dict) (k : String) (v : JValue) : Dict := fun k2 =>
  if k2 = k then some v else d k2

/-- Python truthiness of a JSON value. -/
def truthy : JValue → Bool
  | .null => false
  | .bool b => b
  | .num n => n != 0
  | .str s => s ≠ ""

/-- Python truthiness of `d.get(k)` (absent key is `None`, hence falsy). -/
def truthyOpt : Option JValue → Bool
  | none => false
  | some v => truthy v

/-- `DEFAULT_SETTINGS` from config_manager.py, with the environment
variables unset so every `os.getenv` falls back to its literal default. -/
def defaultList : List (String × JValue) :=
  [("enabled", .bool true),
   ("cron", .str "0 2 * * *"),
   ("retentionDays", .num 7),
   ("lastRunAt", .null),
   ("lastStatus", .str "idle"),
   ("lastBackupId", .null),
   ("lastError", .null),
   ("restoreStartedAt", .null),
   ("restoreCompletedAt", .null),
   ("lastRestoreStatus", .str "idle"),
   ("lastRestoreId", .null),
   ("lastRestoreError", .null),
   ("restoreStatementsApplied", .null),
   ("restoreTotalStatements", .null),
   ("restorePhase", .str "idle"),
   ("restoreProgress", .num 0)]

/-- `DEFAULT_SETTINGS` as a dict. -/
def DEFAULT_SETTINGS : Dict := fun k => defaultList.lookup k

/-- `PERSISTED_KEYS = set(DEFAULT_SETTINGS.keys())`. -/
def PERSISTED_KEYS : List String := defaultList.map Prod.fst

/-! ## Cron model

Modelled from the spec: `compute_next_run` delegates cron parsing and
next-fire computation to the external `croniter` library, which is not
part of this repository. Per the spec it implements standard 5-field
cron semantics (minute, hour, day-of-month, month, day-of-week), with a
field being a comma list of `*`, numbers and ranges, optionally with a
`/step`, and the usual Vixie rule that a restricted day-of-month and a
restricted day-of-week combine with OR. Times are minutes since
1970-01-01 00:00. A `ValueError`/`TypeError` raised by the library
(bad expression, or no fire date found) is modelled as `none`. -/

/-- One cron field: whether it was literally `*`, and the allowed values. -/
structure CronField where
  star : Bool
  vals : List Nat
deriving DecidableEq

/-- A parsed 5-field cron expression. -/
structure Cron where
  minute : CronField
  hour : CronField
  dom : CronField
  month : CronField
  dow : CronField
deriving DecidableEq

def isDigitCh (c : Char) : Bool := '0' ≤ c && c ≤ '9'

/-- Parse a non-empty all-digit character list as a number. -/
def digitsToNat (cs : List Char) : Option Nat :=
  if cs = [] then none
  else if cs.all isDigitCh then
    some (cs.foldl (fun acc c => acc * 10 + (c.toNat - '0'.toNat)) 0)
  else none

/-- Split a character list on a separator character (Python `str.split(sep)`). -/
def splitOnChar (sep : Char) : List Char → List (List Char)
  | [] => [[]]
  | c :: rest =>
    let r := splitOnChar sep rest
    if c = sep then [] :: r
    else
      match r with
      | h :: t => (c :: h) :: t
      | [] => [[c]]

/-- Python whitespace characters recognised by `str.strip()`/`str.split()`
(ASCII portion). -/
def isPyWs (c : Char) : Bool :=
  c = ' ' || c = '\t' || c = '\n' || c = '\r' || c = '\x0b' || c = '\x0c'

/-- Python `str.split()` with no argument: split on whitespace runs,
dropping empty pieces. -/
def splitWs (s : List Char) : List (List Char) :=
  (splitOnChar ' ' (s.map (fun c => if isPyWs c then ' ' else c))).filter
    (fun piece => piece ≠ [])

/-- Expand `a-b/step` into its value list. -/
def rangeVals (a b step : Nat) : List Nat :=
  (List.range ((b - a) / step + 1)).map (fun i => a + i * step)

/-- Parse one comma-item of a cron field: `*`, `n`, `a-b`, each with an
optional `/step`. Returns the allowed values within `[lo, hi]`. -/
def parseCronItem (lo hi : Nat) (item : List Char) : Option (List Nat) :=
  let withStep : List Char → Nat → Option (List Nat) := fun base step =>
    if step = 0 then none
    else if base = ['*'] then some (rangeVals lo hi step)
    else
      match splitOnChar '-' base with
      | [a, b] =>
        match digitsToNat a, digitsToNat b with
        | some a', some b' =>
          if lo ≤ a' && a' ≤ b' && b' ≤ hi then some (rangeVals a' b' step) else none
        | _, _ => none
      | [n] =>
        if step ≠ 1 then none
        else
          match digitsToNat n with
          | some n' => if lo ≤ n' && n' ≤ hi then some [n'] else none
          | none => none
      | _ => none
  match splitOnChar '/' item with
  | [base] => withStep base 1
  | [base, st] =>
    match digitsToNat st with
    | some step => withStep base step
    | none => none
  | _ => none

/-- Parse one cron field token (a comma list of items). -/
def parseCronField (lo hi : Nat) (tok : List Char) : Option CronField :=
  let items := splitOnChar ',' tok
  let parsed := items.map (parseCronItem lo hi)
  if parsed.all Option.isSome then
    some { star := tok = ['*'],
           vals := parsed.foldr (fun o acc => o.getD [] ++ acc) [] }
  else none

/-- Parse a 5-field cron expression; day-of-week 7 is folded to 0 (Sunday). -/
def parseCron (s : List Char) : Option Cron :=
  match splitWs s with
  | [mi, h, d, mo, w] =>
    match parseCronField 0 59 mi, parseCronField 0 23 h, parseCronField 1 31 d,
          parseCronField 1 12 mo, parseCronField 0 7 w with
    | some fmi, some fh, some fd, some fmo, some fw =>
      some { minute := fmi, hour := fh, dom := fd, month := fmo,
             dow := { star := fw.star, vals := fw.vals.map (fun v => v % 7) } }
    | _, _, _, _, _ => none
  | _ => none

/-- Proleptic Gregorian calendar: convert days since 1970-01-01 to
(year, month, day) (Howard Hinnant civil-from-days algorithm, shifted
so all intermediate values are natural numbers). -/
def civilFromDays (z : Nat) : Nat × Nat × Nat :=
  let z2 := z + 719468
  let era := z2 / 146097
  let doe := z2 % 146097
  let yoe := (doe - doe / 1460 + doe / 36524 - doe / 146097) / 365
  let y := yoe + era * 400
  let doy := doe - (365 * yoe + yoe / 4 - yoe / 100)
  let mp := (5 * doy + 2) / 153
  let d := doy - (153 * mp + 2) / 5 + 1
  let m := if mp < 10 then mp + 3 else mp - 9
  (if m ≤ 2 then y + 1 else y, m, d)

def fieldHas (f : CronField) (v : Nat) : Bool := f.vals.contains v

/-- Vixie day matching: with both day fields restricted the match is an OR;
a `*` field defers to the other. `day` counts days since 1970-01-01;
weekday uses Sunday = 0 (1970-01-01 was a Thursday, hence the +4). -/
def dateMatches (c : Cron) (day : Nat) : Bool :=
  let (_, m, d) := civilFromDays day
  let dow := (day + 4) % 7
  fieldHas c.month m &&
    (if c.dom.star && c.dow.star then true
     else if c.dom.star then fieldHas c.dow dow
     else if c.dow.star then fieldHas c.dom d
     else fieldHas c.dom d || fieldHas c.dow dow)

/-- Does minute-of-day `mod` satisfy the minute and hour fields? -/
def minuteHourOk (c : Cron) (mod : Nat) : Bool :=
  fieldHas c.minute (mod % 60) && fieldHas c.hour (mod / 60)

/-- First matching minute-of-day that is at least `lb`. -/
def findMinuteInDay (c : Cron) (lb : Nat) : Option Nat :=
  (List.range 1440).find? (fun mod => decide (lb ≤ mod) && minuteHourOk c mod)

/-- Scan forward day by day (bounded by `fuel`) for the first matching
minute; on the first day only minutes ≥ `lb` count. -/
def findFromDay (c : Cron) : Nat → Nat → Nat → Option Nat
  | _, _, 0 => none
  | day, lb, fuel + 1 =>
    if dateMatches c day then
      match findMinuteInDay c lb with
      | some mod => some (day * 1440 + mod)
      | none => findFromDay c (day + 1) 0 fuel
    else findFromDay c (day + 1) 0 fuel

/-- Search horizon in days (nine years, enough for any cron expression
that fires at all; croniter itself gives up after a bounded search and
raises, which `compute_next_run` catches). -/
def cronHorizonDays : Nat := 3300

/-- Next fire time strictly after `now` (minutes since epoch). -/
def nextFire (c : Cron) (now : Nat) : Option Nat :=
  findFromDay c ((now + 1) / 1440) ((now + 1) % 1440) cronHorizonDays

/-- Embedding of `compute_next_run` (config_manager.py lines 84-96): `None`
when `enabled` is falsy or the cron value is falsy; a non-string truthy
cron raises `TypeError` inside croniter, which is caught and becomes
`None`; an unparsable or never-firing expression raises `ValueError`
(croniter error classes derive from it), also becoming `None`. -/
def compute_next_run (settings : Dict) (now : Nat) : Option Nat :=
  if !truthyOpt (settings "enabled") then none
  else
    match settings "cron" with
    | some (.str s) =>
      if s = "" then none
      else
        match parseCron s.data with
        | some c => nextFire c now
        | none => none
    | _ => none

def pad2 (n : Nat) : String := if n < 10 then "0" ++ toString n else toString n

def pad4 (n : Nat) : String :=
  if n < 10 then "000" ++ toString n
  else if n < 100 then "00" ++ toString n
  else if n < 1000 then "0" ++ toString n
  else toString n

/-- `datetime.isoformat()` of a minutes-since-epoch value. -/
def isoformatMin (t : Nat) : String :=
  let day := t / 1440
  let md := t % 1440
  let c := civilFromDays day
  pad4 c.1 ++ "-" ++ pad2 c.2.1 ++ "-" ++ pad2 c.2.2 ++ "T" ++
    pad2 (md / 60) ++ ":" ++ pad2 (md % 60) ++ ":00"

/-- The value stored under `nextRunAt`: an ISO timestamp string, or null. -/
def computeNextRunJson (settings : Dict) (now : Nat) : JValue :=
  match compute_next_run settings now with
  | none => .null
  | some t => .str (isoformatMin t)

/-! ## The settings store (config_manager.py)

The persisted file is modelled as `Option Dict` (`none` = the file does
not exist). File I/O, the mutual-exclusion lock and the
`sync_runtime_with_settings` environment-variable mirroring are not part
of the modelled state. `now` stands for `datetime.now()`. -/

/-- `load_settings` (lines 49-61): absent file returns the defaults
unchanged (in particular without any `nextRunAt` key); otherwise the file
content is merged over the defaults and `nextRunAt` is attached. -/
def load_settings (file : Option Dict) (now : Nat) : Dict :=
  match file with
  | none => DEFAULT_SETTINGS
  | some data =>
    let merged := dictUpdate DEFAULT_SETTINGS data
    dictInsert merged "nextRunAt" (computeNextRunJson merged now)

/-- The file written by `save_settings` (lines 64-69):
`{key: settings.get(key) for key in PERSISTED_KEYS}`, so exactly the
persisted keys, with `None` (null) for keys absent from `settings`. -/
def save_settings_file (settings : Dict) : Dict := fun k =>
  if PERSISTED_KEYS.contains k then some ((settings k).getD .null) else none

/-- `save_settings` (lines 64-71): writes the snapshot and returns the
freshly loaded state. Result: (new file contents, returned dict). -/
def save_settings (settings : Dict) (now : Nat) : Dict × Dict :=
  let f := save_settings_file settings
  (f, load_settings (some f) now)

/-- `update_settings` (lines 74-77): read-modify-write merge. -/
def update_settings (file : Option Dict) (patch : Dict) (now : Nat) :
    Dict × Dict :=
  let current := load_settings file now
  save_settings (dictUpdate current patch) now

/-- `update_runtime_state` (lines 80-81) is `update_settings` on kwargs. -/
def update_runtime_state (file : Option Dict) (patch : Dict) (now : Nat) :
    Dict × Dict :=
  update_settings file patch now

/-! ## Store lemmas -/

theorem lookup_isSome_of_mem_keys {β : Type} (l : List (String × β)) (k : String)
    (h : (l.map Prod.fst).contains k = true) : (l.lookup k).isSome = true := by
  induction l with
  | nil => simp at h
  | cons p t ih =>
    rcases p with ⟨a, b⟩
    by_cases hk : k == a
    · simp [List.lookup, hk]
    · have h2 : (t.map Prod.fst).contains k = true := by
        simp only [List.map, List.contains_cons, hk, Bool.false_or] at h
        exact h
      simp [List.lookup, hk, ih h2]

theorem nextRunAt_not_persisted : PERSISTED_KEYS.contains "nextRunAt" = false := by
  decide

theorem default_isSome_of_persisted (k : String)
    (hk : PERSISTED_KEYS.contains k = true) :
    (DEFAULT_SETTINGS k).isSome = true :=
  lookup_isSome_of_mem_keys defaultList k hk

/-- Claim C1: for every persisted state and every update restricted to the
known key set, `save(patch)` (the read-modify-write `update_settings`)
followed by `load()` yields a state in which exactly the keys named in the
patch carry the new values and every other persisted key carries the value
it had before (merge semantics, not replace). -/
theorem save_then_load_merges_exactly (file patch : Dict) (now : Nat)
    (k : String)
    (hk : PERSISTED_KEYS.contains k = true)
    (_hres : ∀ k2, patch k2 ≠ none → PERSISTED_KEYS.contains k2 = true) :
    (∀ v, patch k = some v → (update_settings (some file) patch now).2 k = some v) ∧
    (patch k = none →
      (update_settings (some file) patch now).2 k = load_settings (some file) now k) := by
  have hne : k ≠ "nextRunAt" := by
    intro h
    rw [h, nextRunAt_not_persisted] at hk
    exact Bool.noConfusion hk
  constructor
  · intro v hv
    simp only [update_settings, save_settings, load_settings, save_settings_file,
      dictUpdate, dictInsert, if_neg hne, hk, if_true, hv, Option.getD]
  · intro hv
    simp only [update_settings, save_settings, load_settings, save_settings_file,
      dictUpdate, dictInsert, if_neg hne, hk, if_true, hv]
    cases hf : file k with
    | some w => simp
    | none =>
      have hd := default_isSome_of_persisted k hk
      cases hdv : DEFAULT_SETTINGS k with
      | none => rw [hdv] at hd; exact Bool.noConfusion hd
      | some dv => simp

/-- Concrete witness for C1: updating `lastStatus` leaves `cron` at its
prior loaded value. -/
def samplePatch : Dict := fun k =>
  if k = "lastStatus" then some (.str "running") else none

theorem save_then_load_merges_exactly_witness :
    (update_settings (some DEFAULT_SETTINGS) samplePatch 0).2 "cron" =
      load_settings (some DEFAULT_SETTINGS) 0 "cron" := by
  have h := save_then_load_merges_exactly DEFAULT_SETTINGS samplePatch 0 "cron"
    (by decide)
    (by
      intro k2 h2
      by_cases hc : k2 = "lastStatus"
      · rw [hc]; decide
      · simp [samplePatch, hc] at h2)
  exact h.2 (by simp [samplePatch])

/-- Claim C2 (amended): when the persisted file exists, `load()` returns
the file content merged over the defaults (missing keys defaulted, unknown
keys retained) with `nextRunAt` computed and attached; when the file is
absent it returns the defaults unchanged, WITHOUT attaching a `nextRunAt`
field (the early return at config_manager.py line 52 skips the compute
step). -/
theorem load_settings_merge_and_nextRunAt (data : Dict) (now : Nat) :
    (∀ k, k ≠ "nextRunAt" →
      load_settings (some data) now k = dictUpdate DEFAULT_SETTINGS data k) ∧
    load_settings (some data) now "nextRunAt" =
      some (computeNextRunJson (dictUpdate DEFAULT_SETTINGS data) now) ∧
    (∀ k, load_settings none now k = DEFAULT_SETTINGS k) := by
  refine ⟨fun k hk => ?_, ?_, fun k => rfl⟩
  · simp [load_settings, dictInsert, hk]
  · simp [load_settings, dictInsert]

theorem load_settings_merge_and_nextRunAt_witness :
    load_settings (some (fun _ => none)) 0 "enabled" =
      dictUpdate DEFAULT_SETTINGS (fun _ => none) "enabled" :=
  (load_settings_merge_and_nextRunAt (fun _ => none) 0).1 "enabled" (by decide)

set_option maxRecDepth 100000 in
/-- Counterexample to C2 as stated: with no persisted file, the defaults
have `enabled=true` and a valid cron (`compute_next_run` would give the
02:00 fire time, minute 120 of the epoch), yet the state returned by
`load_settings` carries no `nextRunAt` key at all. -/
theorem load_absent_missing_nextRunAt :
    compute_next_run DEFAULT_SETTINGS 0 = some 120 ∧
    load_settings none 0 "nextRunAt" = none := by
  constructor
  · decide
  · rfl

theorem findFromDay_lower_bound (c : Cron) :
    ∀ fuel day lb t, lb ≤ 1440 → findFromDay c day lb fuel = some t →
      day * 1440 + lb ≤ t := by
  intro fuel
  induction fuel with
  | zero => intro day lb t _ h; simp [findFromDay] at h
  | succ n ih =>
    intro day lb t hlb h
    simp only [findFromDay] at h
    by_cases hd : dateMatches c day
    · rw [if_pos hd] at h
      cases hfind : findMinuteInDay c lb with
      | some mod =>
        rw [hfind] at h
        cases h
        have hmod : lb ≤ mod := by
          have h2 := hfind
          simp [findMinuteInDay] at h2
          exact h2.1.1
        omega
      | none =>
        rw [hfind] at h
        have := ih (day + 1) 0 t (by omega) h
        omega
    · rw [if_neg hd] at h
      have := ih (day + 1) 0 t (by omega) h
      omega

theorem nextFire_gt (c : Cron) (now t : Nat) (h : nextFire c now = some t) :
    now < t := by
  have hb := findFromDay_lower_bound c cronHorizonDays ((now + 1) / 1440)
    ((now + 1) % 1440) t (Nat.le_of_lt (Nat.mod_lt _ (by omega))) h
  have hdm : (now + 1) / 1440 * 1440 + (now + 1) % 1440 = now + 1 := by
    have := Nat.div_add_mod (now + 1) 1440
    omega
  omega

/-- Claim C3 (amended): `compute_next_run` returns null when `enabled` is
falsy, when the cron value is absent or not a string, when it is the
empty string, and when it does not parse as a 5-field cron expression;
it never raises (the embedding is total, matching the
caught `ValueError`/`TypeError`). Any fire time it does return is
strictly after the current time. A syntactically valid expression with
no fire date at all also yields null (see the counterexample). -/
theorem compute_next_run_null_cases_and_future (settings : Dict) (now : Nat) :
    (truthyOpt (settings "enabled") = false → compute_next_run settings now = none) ∧
    ((∀ s, settings "cron" ≠ some (.str s)) → compute_next_run settings now = none) ∧
    (settings "cron" = some (.str "") → compute_next_run settings now = none) ∧
    (∀ s, settings "cron" = some (.str s) → parseCron s.data = none →
      compute_next_run settings now = none) ∧
    (∀ t, compute_next_run settings now = some t → now < t) := by
  refine ⟨fun he => ?_, fun hc => ?_, fun hc => ?_, fun s hc hp => ?_, fun t h => ?_⟩
  · simp [compute_next_run, he]
  · unfold compute_next_run
    cases hv : settings "cron" with
    | none => cases truthyOpt (settings "enabled") <;> simp
    | some v =>
      cases v with
      | str s => exact absurd hv (hc s)
      | null => cases truthyOpt (settings "enabled") <;> simp
      | bool b => cases truthyOpt (settings "enabled") <;> simp
      | num n => cases truthyOpt (settings "enabled") <;> simp
  · unfold compute_next_run
    rw [hc]
    cases truthyOpt (settings "enabled") <;> simp
  · unfold compute_next_run
    rw [hc]
    cases truthyOpt (settings "enabled") <;> simp [hp]
  · unfold compute_next_run at h
    split at h
    · simp at h
    · split at h
      case _ s =>
        split at h
        · simp at h
        · split at h
          case _ c _ => exact nextFire_gt c now t h
          case _ => simp at h
      case _ => simp at h

/-- A sample disabled settings record used by the C3 witness. -/
def disabledSettings : Dict := fun k =>
  if k = "enabled" then some (.bool false)
  else if k = "cron" then some (.str "0 2 * * *") else none

theorem compute_next_run_null_cases_and_future_witness :
    compute_next_run disabledSettings 5 = none :=
  (compute_next_run_null_cases_and_future disabledSettings 5).1 (by decide)

/-- Settings with `enabled=true` and the syntactically valid 5-field cron
expression `0 0 30 2 *` (midnight on February 30th), which never fires. -/
def feb30Settings : Dict := fun k =>
  if k = "enabled" then some (.bool true)
  else if k = "cron" then some (.str "0 0 30 2 *") else none

set_option maxRecDepth 4000000 in
/-- Counterexample to C3 as stated: `0 0 30 2 *` is a valid 5-field cron
expression and `enabled` is true, yet `compute_next_run` returns null
(croniter finds no fire date and raises a `ValueError` subclass, which
the function catches). -/
theorem compute_next_run_valid_never_fires :
    (parseCron ("0 0 30 2 *".data)).isSome = true ∧
    truthyOpt (feb30Settings "enabled") = true ∧
    compute_next_run feb30Settings 0 = none := by
  refine ⟨by decide, by decide, by decide⟩

/-! ## Statement codec (backup.py `_load_statements`, lines 531-558)

A Python string is modelled as `List Char`; the script is the list of its
lines as file iteration yields them (each line keeps its trailing
newline, which is what `buffer.append(line)` stores and `''.join` glues
back together). -/

/-- Python `str.lstrip()`. -/
def lstrip (s : List Char) : List Char := s.dropWhile isPyWs

/-- Python `str.rstrip()`. -/
def rstrip (s : List Char) : List Char := (s.reverse.dropWhile isPyWs).reverse

/-- Python `str.strip()`. -/
def stripL (s : List Char) : List Char := lstrip (rstrip s)

/-- Python `s.startswith('//')`. -/
def startsWithComment : List Char → Bool
  | '/' :: '/' :: _ => true
  | _ => false

/-- Python `s.endswith(';')`. -/
def lastIsSemi (s : List Char) : Bool :=
  match s.getLast? with
  | some c => c = ';'
  | none => false

/-- Python `''.join(buffer)`. -/
def joinAll (ls : List (List Char)) : List Char := ls.flatten

/-- Embedding of `_load_statements`: skip blank and `//` lines, accumulate
raw lines, emit on a trimmed line ending in `;` (with the joined text
stripped, one trailing `;` removed, and stripped again; empty statements
are skipped), and flush any remaining non-empty buffer at end of file. -/
def loadStatementsAux : List (List Char) → List (List Char) → List (List Char)
  | buffer, [] =>
    if buffer = [] then []
    else
      let statement := stripL (joinAll buffer)
      if statement = [] then [] else [statement]
  | buffer, line :: rest =>
    let stripped := stripL line
    if stripped = [] || startsWithComment stripped then
      loadStatementsAux buffer rest
    else
      let buffer2 := buffer ++ [line]
      if lastIsSemi stripped then
        (let statement := stripL (joinAll buffer2)
         if statement = [] then []
         else [stripL (if lastIsSemi statement then statement.dropLast else statement)]) ++
          loadStatementsAux [] rest
      else loadStatementsAux buffer2 rest

/-- `_load_statements` run on a whole script. -/
def load_statements (lines : List (List Char)) : List (List Char) :=
  loadStatementsAux [] lines

/-- The parsing rule exactly as the claim words it: blank lines and
comment lines are skipped; a running buffer accumulates lines; when a
line ends (trimmed) with `;`, the trailing `;` is stripped from the
trimmed accumulated text, which is trimmed and emitted; a non-empty
remaining buffer is flushed as a final trimmed statement. -/
def specParseAux : List (List Char) → List (List Char) → List (List Char)
  | buffer, [] => if buffer = [] then [] else [stripL (joinAll buffer)]
  | buffer, line :: rest =>
    let stripped := stripL line
    if stripped = [] || startsWithComment stripped then specParseAux buffer rest
    else
      let buffer2 := buffer ++ [line]
      if lastIsSemi stripped then
        stripL ((stripL (joinAll buffer2)).dropLast) :: specParseAux [] rest
      else specParseAux buffer2 rest

/-- The claim-side parse of a whole script. -/
def specStatements (lines : List (List Char)) : List (List Char) :=
  specParseAux [] lines

theorem dropWhile_all_of_all {p : Char → Bool} (s : List Char)
    (h : s.all p = true) : (s.dropWhile p).all p = true := by
  induction s with
  | nil => simp
  | cons c t ih =>
    simp only [List.all_cons, Bool.and_eq_true] at h
    rw [List.dropWhile_cons]
    by_cases hc : p c
    · rw [if_pos hc]; exact ih h.2
    · exact absurd h.1 hc

theorem all_of_dropWhile_all {p : Char → Bool} (s : List Char)
    (h : (s.dropWhile p).all p = true) : s.all p = true := by
  induction s with
  | nil => simp
  | cons c t ih =>
    rw [List.dropWhile_cons] at h
    by_cases hc : p c
    · rw [if_pos hc] at h
      simp [hc, ih h]
    · rw [if_neg hc] at h
      simp only [List.all_cons, Bool.and_eq_true] at h
      exact absurd h.1 hc

theorem stripL_eq_nil_iff (s : List Char) :
    stripL s = [] ↔ s.all isPyWs = true := by
  unfold stripL lstrip rstrip
  constructor
  · intro h
    have h2 : (s.reverse.dropWhile isPyWs).reverse.all isPyWs = true :=
      all_of_dropWhile_all _ (by rw [h]; rfl)
    rw [List.all_reverse] at h2
    have h3 := all_of_dropWhile_all _ h2
    rwa [List.all_reverse] at h3
  · intro h
    have h2 : s.reverse.all isPyWs = true := by rwa [List.all_reverse]
    have h3 := dropWhile_all_of_all _ h2
    have h4 : (s.reverse.dropWhile isPyWs).reverse.all isPyWs = true := by
      rwa [List.all_reverse]
    rw [List.dropWhile_eq_nil_iff]
    rw [List.all_eq_true] at h4
    exact h4

/-- Head analogue of `lastIsSemi`, used through list reversal. -/
def headIsSemi (s : List Char) : Bool :=
  match s.head? with
  | some c => c = ';'
  | none => false

theorem lastIsSemi_reverse (z : List Char) :
    lastIsSemi z.reverse = headIsSemi z := by
  unfold lastIsSemi headIsSemi
  rw [List.getLast?_reverse]

theorem lastIsSemi_dropWhile (y : List Char) :
    lastIsSemi (y.dropWhile isPyWs) = lastIsSemi y := by
  induction y with
  | nil => rfl
  | cons c t ih =>
    rw [List.dropWhile_cons]
    by_cases hc : isPyWs c
    · rw [if_pos hc, ih]
      cases t with
      | nil =>
        have hcs : c ≠ ';' := by
          intro hc2; rw [hc2] at hc; simp [isPyWs] at hc
        simp [lastIsSemi, hcs]
      | cons d u => simp [lastIsSemi, List.getLast?_cons_cons]
    · rw [if_neg hc]

theorem lastIsSemi_stripL (s : List Char) :
    lastIsSemi (stripL s) = headIsSemi (s.reverse.dropWhile isPyWs) := by
  unfold stripL lstrip rstrip
  rw [lastIsSemi_dropWhile, lastIsSemi_reverse]

theorem lastIsSemi_stripL_append (pre last : List Char)
    (h : lastIsSemi (stripL last) = true) :
    lastIsSemi (stripL (pre ++ last)) = true := by
  rw [lastIsSemi_stripL] at h ⊢
  rw [List.reverse_append, List.dropWhile_append]
  cases hd : last.reverse.dropWhile isPyWs with
  | nil => rw [hd] at h; exact absurd h (by simp [headIsSemi])
  | cons a t =>
    rw [hd] at h
    simpa [headIsSemi] using h

theorem stripL_flatten_ne_nil (buffer : List (List Char)) (l : List Char)
    (hl : l ∈ buffer) (hne : stripL l ≠ []) : stripL (joinAll buffer) ≠ [] := by
  intro hcontra
  rw [joinAll, stripL_eq_nil_iff, List.all_eq_true] at hcontra
  apply hne
  rw [stripL_eq_nil_iff, List.all_eq_true]
  intro x hx
  exact hcontra x (List.mem_flatten.mpr ⟨l, hl, hx⟩)

theorem loadStatementsAux_eq_spec :
    ∀ (lines buffer : List (List Char)), (∀ l ∈ buffer, stripL l ≠ []) →
      loadStatementsAux buffer lines = specParseAux buffer lines := by
  intro lines
  induction lines with
  | nil =>
    intro buffer hb
    cases buffer with
    | nil => rfl
    | cons b t =>
      simp only [loadStatementsAux, specParseAux]
      have hni : stripL (joinAll (b :: t)) ≠ [] :=
        stripL_flatten_ne_nil (b :: t) b (by simp) (hb b (by simp))
      simp [hni]
  | cons line rest ih =>
    intro buffer hb
    simp only [loadStatementsAux, specParseAux]
    by_cases hskip : (stripL line = [] || startsWithComment (stripL line)) = true
    · rw [if_pos hskip, if_pos hskip]
      exact ih buffer hb
    · rw [if_neg hskip, if_neg hskip]
      have hline : stripL line ≠ [] := by
        intro h0
        exact hskip (by rw [h0]; simp)
      have hb2 : ∀ l ∈ buffer ++ [line], stripL l ≠ [] := by
        intro l hl
        rcases List.mem_append.mp hl with hl2 | hl2
        · exact hb l hl2
        · rw [List.mem_singleton.mp hl2]; exact hline
      by_cases hsemi : lastIsSemi (stripL line) = true
      · rw [if_pos hsemi, if_pos hsemi]
        have hst : stripL (joinAll (buffer ++ [line])) ≠ [] :=
          stripL_flatten_ne_nil _ line (by simp) hline
        have hfl : joinAll (buffer ++ [line]) = joinAll buffer ++ line := by
          simp [joinAll]
        have hsemi2 : lastIsSemi (stripL (joinAll (buffer ++ [line]))) = true := by
          rw [hfl]
          exact lastIsSemi_stripL_append _ _ hsemi
        rw [ih [] (by simp)]
        simp [hst, hsemi2]
      · rw [if_neg hsemi, if_neg hsemi]
        exact ih (buffer ++ [line]) hb2

/-- Claim C4: for every statement script, `_load_statements` skips blank
and comment lines, accumulates the rest, emits a statement (trailing `;`
stripped, text trimmed) whenever a trimmed line ends in `;`, and flushes
any non-empty remaining buffer at end of file — the returned sequence is
exactly the ordered statements of the script under that rule. -/
theorem load_statements_parses_per_rule (lines : List (List Char)) :
    load_statements lines = specStatements lines :=
  loadStatementsAux_eq_spec lines [] (by simp)

/-! ## Retention cleanup (backup.py `cleanup_old_backups`, lines 310-358) -/

/-- Does the list start with the given pattern? -/
def listStartsWith : List Char → List Char → Bool
  | _, [] => true
  | [], _ :: _ => false
  | a :: s, b :: p => a = b && listStartsWith s p

/-- Python `str.replace(pat, rep)`: left-to-right, non-overlapping.
Structural recursion on a fuel that `pyReplace` instantiates with the
string length; every step consumes at least one character, so the fuel
never runs out and the `0` case (which returns the rest unchanged) is
never reached from `pyReplace`. -/
def pyReplaceAux (pat rep : List Char) : Nat → List Char → List Char
  | 0, s => s
  | _ + 1, [] => []
  | fuel + 1, c :: rest =>
    if pat ≠ [] && listStartsWith (c :: rest) pat then
      rep ++ pyReplaceAux pat rep fuel (rest.drop (pat.length - 1))
    else c :: pyReplaceAux pat rep fuel rest

/-- Python `s.replace(pat, rep)`. -/
def pyReplace (pat rep s : List Char) : List Char :=
  pyReplaceAux pat rep s.length s

/-- Number of days in a month of the proleptic Gregorian calendar. -/
def daysInMonth (y m : Nat) : Nat :=
  if m = 2 then
    if (y % 4 = 0 && y % 100 ≠ 0) || y % 400 = 0 then 29 else 28
  else if m = 4 || m = 6 || m = 9 || m = 11 then 30
  else 31

/-- Days from 1970-01-01 to the given civil date (Hinnant algorithm,
truncating integer division as in the reference implementation). -/
def daysFromCivil (y m d : Nat) : Int :=
  let y2 : Int := (y : Int) - (if m ≤ 2 then 1 else 0)
  let era : Int := (if 0 ≤ y2 then y2 else y2 - 399) / 400
  let yoe : Int := y2 - era * 400
  let mp : Int := ((m : Int) + 9) % 12
  let doy : Int := (153 * mp + 2) / 5 + (d : Int) - 1
  let doe : Int := yoe * 365 + yoe / 4 - yoe / 100 + doy
  era * 146097 + doe - 719468

/-- Parse a 1-2 digit strptime field within bounds (the `%m`-style regex
alternations reduce to a length and bounds check). -/
def parseField2 (lo hi : Nat) (cs : List Char) : Option Nat :=
  if cs.length = 1 || cs.length = 2 then
    match digitsToNat cs with
    | some v => if lo ≤ v && v ≤ hi then some v else none
    | none => none
  else none

/-- Parse a 4-digit strptime `%Y` field; `datetime` requires year ≥ 1. -/
def parseYear4 (cs : List Char) : Option Nat :=
  if cs.length = 4 then
    match digitsToNat cs with
    | some v => if 1 ≤ v then some v else none
    | none => none
  else none

/-- `datetime.strptime(f"{datePart}_{timePart}", '%Y-%m-%d_%H-%M-%S')`,
yielding seconds since 1970-01-01; `None` models the raised `ValueError`
(including an out-of-range day for the month). -/
def strptimeTs (datePart timePart : List Char) : Option Int :=
  match splitOnChar '-' datePart, splitOnChar '-' timePart with
  | [ys, ms, ds], [hs, mis, ss] =>
    match parseYear4 ys, parseField2 1 12 ms, parseField2 1 31 ds,
          parseField2 0 23 hs, parseField2 0 59 mis, parseField2 0 59 ss with
    | some y, some m, some d, some h, some mi, some s =>
      if d ≤ daysInMonth y m then
        some (daysFromCivil y m d * 86400 + (h * 3600 + mi * 60 + s : Nat))
      else none
    | _, _, _, _, _, _ => none
  | _, _ => none

/-- The date-parsing step of `cleanup_old_backups` (lines 332-342): take
the key's final path segment, delete every occurrence of `.cypher.gz`
then `.cypher`, split on `_`, require at least 3 parts, and strptime the
last two parts; `none` models the caught `ValueError`/`IndexError`. -/
def parse_backup_date (key : List Char) : Option Int :=
  let filename := (splitOnChar '/' key).getLastD []
  let noExt := pyReplace (".cypher.gz".data) [] filename
  let noExt2 := pyReplace (".cypher".data) [] noExt
  let parts := splitOnChar '_' noExt2
  if 3 ≤ parts.length then
    strptimeTs (parts.dropLast.getLastD []) (parts.getLastD [])
  else none

/-- The set of keys `cleanup_old_backups` deletes, given the listed keys
under the backup prefix, the current time (seconds since epoch) and the
retention period in days. -/
def cleanup_old_backups_deleted (objs : List (List Char)) (now : Int)
    (retentionDays : Nat) : List (List Char) :=
  let cutoff := now - (retentionDays : Int) * 86400
  objs.filter fun key =>
    match parse_backup_date key with
    | some t => t < cutoff
    | none => false

/-- Claim C5: a listed object is deleted by retention cleanup iff its
filename parses as ending in a `_YYYY-MM-DD_HH-MM-SS` timestamp (after
stripping the known extensions) older than `now - retentionDays`; in
particular `neo4j-backup/db_corrupted.cypher` does not parse and is never
deleted. -/
theorem cleanup_deletes_iff_parsed_and_old (objs : List (List Char))
    (now : Int) (retentionDays : Nat) (key : List Char) :
    (key ∈ cleanup_old_backups_deleted objs now retentionDays ↔
      key ∈ objs ∧ ∃ t, parse_backup_date key = some t ∧
        t < now - (retentionDays : Int) * 86400) ∧
    parse_backup_date ("neo4j-backup/db_corrupted.cypher".data) = none := by
  constructor
  · rw [cleanup_old_backups_deleted, List.mem_filter]
    cases hp : parse_backup_date key with
    | none => simp [hp]
    | some t => simp [hp]
  · decide

/-! ## Restore key sanitizer (backup.py `_sanitize_backup_key`, lines 501-503) -/

/-- `backup_key.replace('..', '_')`. -/
def sanitize_backup_key (key : List Char) : List Char :=
  pyReplace ['.', '.'] ['_'] key

/-- Does the list contain two consecutive dots? -/
def hasDotDot : List Char → Bool
  | c1 :: c2 :: rest => (c1 = '.' && c2 = '.') || hasDotDot (c2 :: rest)
  | _ => false

theorem pyReplaceAux_nil (pat rep : List Char) (fuel : Nat) :
    pyReplaceAux pat rep fuel [] = [] := by
  cases fuel <;> rfl

theorem hasDotDot_cons_of_ne (a : Char) (X : List Char) (ha : a ≠ '.') :
    hasDotDot (a :: X) = hasDotDot X := by
  cases X with
  | nil => simp [hasDotDot]
  | cons b Y => simp [hasDotDot, ha]

theorem pyReplaceAux_dotdot_free :
    ∀ fuel s, s.length ≤ fuel →
      hasDotDot (pyReplaceAux ['.', '.'] ['_'] fuel s) = false := by
  intro fuel
  induction fuel with
  | zero =>
    intro s hs
    have h0 : s = [] := List.eq_nil_of_length_eq_zero (Nat.le_zero.mp hs)
    rw [h0]; rfl
  | succ n ih =>
    intro s hs
    cases s with
    | nil => rfl
    | cons c rest =>
      simp only [pyReplaceAux]
      by_cases hm : ((['.', '.'] ≠ ([] : List Char)) &&
          listStartsWith (c :: rest) ['.', '.']) = true
      · rw [if_pos hm]
        cases rest with
        | nil => simp [listStartsWith] at hm
        | cons d rest2 =>
          simp only [List.length_cons] at hs
          have hlen : rest2.length ≤ n := by omega
          have hr := ih rest2 hlen
          rw [show (['.', '.'] : List Char).length - 1 = 1 from rfl]
          simp only [List.drop_succ_cons, List.drop_zero, List.cons_append,
            List.nil_append]
          rw [hasDotDot_cons_of_ne '_' _ (by decide)]
          exact hr
      · rw [if_neg hm]
        simp only [List.length_cons] at hs
        have hrest : rest.length ≤ n := by omega
        have hX := ih rest hrest
        by_cases hc : c = '.'
        · subst hc
          have hsw : listStartsWith rest ['.'] = false := by
            cases hval : listStartsWith rest ['.']
            · rfl
            · exact absurd (by simp [listStartsWith, hval]) hm
          cases rest with
          | nil => rw [pyReplaceAux_nil]; rfl
          | cons d rest2 =>
            have hd : d ≠ '.' := by
              intro hdd
              rw [hdd] at hsw
              simp [listStartsWith] at hsw
            cases n with
            | zero => simp at hrest
            | succ m =>
              simp only [pyReplaceAux] at hX ⊢
              have hm2 : ((['.', '.'] ≠ ([] : List Char)) &&
                  listStartsWith (d :: rest2) ['.', '.']) = false := by
                simp [listStartsWith, hd]
              rw [hm2] at hX ⊢
              simp only [Bool.false_eq_true, if_false] at hX ⊢
              simp only [hasDotDot, hd]
              simpa using hX
        · rw [hasDotDot_cons_of_ne c _ hc]
          exact hX

/-- Claim C9: for every backup key, the sanitized local filename derived
by the restore pipeline contains no `..` substring. -/
theorem sanitize_backup_key_no_dotdot (key : List Char) :
    hasDotDot (sanitize_backup_key key) = false :=
  pyReplaceAux_dotdot_free key.length key (Nat.le_refl _)

/-! ## Backup job controller (api.py `BackupTaskController`, lines 117-143)

The controller owns `_thread` (modelled as `Option Bool`: present with its
aliveness) and `_job_id`. `trigger` raises `RuntimeError`, which the HTTP
route turns into a 409 Conflict; the raise is modelled as `Except.error`.
The whole `trigger` body runs under the controller lock, so it acts on a
single consistent state. -/

structure ControllerState where
  thread : Option Bool
  jobId : Option String
deriving DecidableEq

/-- `is_running`: `self._thread is not None and self._thread.is_alive()`. -/
def is_running (st : ControllerState) : Bool :=
  match st.thread with
  | some alive => alive
  | none => false

/-- `current_job_id`: the job id only while running. -/
def current_job_id (st : ControllerState) : Option String :=
  if is_running st then st.jobId else none

/-- `BackupTaskController.trigger`: refuse with a Conflict when running,
else install a fresh live thread and job id and return the id. Result:
(state afterwards, raised-or-returned value). -/
def trigger (st : ControllerState) (newJobId : String) :
    ControllerState × Except String String :=
  if is_running st then (st, .error "Backup already in progress")
  else ({ thread := some true, jobId := some newJobId }, .ok newJobId)

/-- Claim C7: triggering a backup while one is running fails with the
Conflict error and changes nothing: the state (hence the running flag and
the current job id) is exactly as before. -/
theorem trigger_conflict_no_state_change (st : ControllerState)
    (newJobId : String) (h : is_running st = true) :
    (trigger st newJobId).1 = st ∧
    (trigger st newJobId).2 = .error "Backup already in progress" ∧
    current_job_id (trigger st newJobId).1 = current_job_id st := by
  rw [trigger, if_pos h]
  exact ⟨rfl, rfl, rfl⟩

theorem trigger_conflict_no_state_change_witness :
    (trigger ⟨some true, some "manual-100"⟩ "manual-101").1 =
      ⟨some true, some "manual-100"⟩ ∧
    (trigger ⟨some true, some "manual-100"⟩ "manual-101").2 =
      .error "Backup already in progress" :=
  ⟨(trigger_conflict_no_state_change ⟨some true, some "manual-100"⟩
      "manual-101" (by decide)).1,
   (trigger_conflict_no_state_change ⟨some true, some "manual-100"⟩
      "manual-101" (by decide)).2.1⟩

/-! ## Backup pipeline (backup.py `validate_config` lines 75-91,
`perform_backup` lines 424-498)

External calls are abstracted by outcome flags in `BackupEnv`; the
pipeline result carries the fields the claims inspect (the wall-clock
`started_at`/`completed_at` timestamps are omitted), together with a
trace of the external actions the run performed, in order. -/

structure BackupConfig where
  neo4jPassword : String
  r2AccountId : String
  r2AccessKeyId : String
  r2SecretAccessKey : String
  r2BucketName : String

/-- The `required` dict of `validate_config`, in insertion order. -/
def requiredConfig (c : BackupConfig) : List (String × String) :=
  [("NEO4J_PASSWORD", c.neo4jPassword),
   ("R2_ACCOUNT_ID", c.r2AccountId),
   ("R2_ACCESS_KEY_ID", c.r2AccessKeyId),
   ("R2_SECRET_ACCESS_KEY", c.r2SecretAccessKey),
   ("R2_BUCKET_NAME", c.r2BucketName)]

/-- `missing = [k for k, v in required.items() if not v]`. -/
def missingConfig (c : BackupConfig) : List String :=
  ((requiredConfig c).filter fun p => p.2 = "").map Prod.fst

/-- `validate_config`: true iff no required key is empty (the missing
keys themselves are only logged, at line 88). -/
def validate_config (c : BackupConfig) : Bool := missingConfig c = []

structure BackupResult where
  success : Bool
  remote_key : Option String
  size_bytes : Option Nat
  error : Option String
deriving DecidableEq

inductive BackupAction where
  | logMissingConfig : List String → BackupAction
  | verifyR2 : BackupAction
  | collectSummary : BackupAction
  | exportDb : BackupAction
  | compress : BackupAction
  | upload : BackupAction
  | removeLocal : BackupAction
  | cleanup : BackupAction
deriving DecidableEq

structure BackupEnv where
  config : BackupConfig
  r2Ok : Bool
  exportOk : Bool
  compressionEnabled : Bool
  compressOk : Bool
  uploadOk : Bool
  sizeBytes : Nat
  backupName : String

/-- Embedding of `perform_backup`: validate, verify R2, best-effort
summary, export, optional compression, upload (artifact removed whether
or not the upload succeeds), retention cleanup. The upload metadata is
not modelled (no claim inspects it). Returns the result and the ordered
action trace. -/
def perform_backup (env : BackupEnv) : BackupResult × List BackupAction :=
  if !validate_config env.config then
    ({ success := false, remote_key := none, size_bytes := none,
       error := some "Configuration validation failed, aborting" },
     [.logMissingConfig (missingConfig env.config)])
  else if !env.r2Ok then
    ({ success := false, remote_key := none, size_bytes := none,
       error := some "R2 connection verification failed, aborting" },
     [.verifyR2])
  else if !env.exportOk then
    ({ success := false, remote_key := none, size_bytes := none,
       error := some "Backup failed at export stage" },
     [.verifyR2, .collectSummary, .exportDb])
  else if env.compressionEnabled && !env.compressOk then
    ({ success := false, remote_key := none, size_bytes := none,
       error := some "Backup failed at compression stage" },
     [.verifyR2, .collectSummary, .exportDb, .compress])
  else
    let ext := if env.compressionEnabled then ".cypher.gz" else ".cypher"
    let remoteKey := "neo4j-backup/" ++ env.backupName ++ ext
    let trace0 := [BackupAction.verifyR2, .collectSummary, .exportDb] ++
      (if env.compressionEnabled then [BackupAction.compress] else [])
    if !env.uploadOk then
      ({ success := false, remote_key := none, size_bytes := some env.sizeBytes,
         error := some "Backup failed at upload stage" },
       trace0 ++ [.upload, .removeLocal])
    else
      ({ success := true, remote_key := some remoteKey,
         size_bytes := some env.sizeBytes, error := none },
       trace0 ++ [.upload, .removeLocal, .cleanup])

/-- Claim C8 (amended): with one or more required keys empty, the backup
run fails immediately: the result is failed with error
`Configuration validation failed, aborting` (a fixed message that does not
list the missing keys — those are only written to the log, modelled by
the `logMissingConfig` trace entry), and neither export nor upload is
ever attempted. -/
theorem perform_backup_invalid_config (env : BackupEnv)
    (h : missingConfig env.config ≠ []) :
    (perform_backup env).1.success = false ∧
    (perform_backup env).1.error = some "Configuration validation failed, aborting" ∧
    (perform_backup env).2 = [.logMissingConfig (missingConfig env.config)] ∧
    BackupAction.exportDb ∉ (perform_backup env).2 ∧
    BackupAction.upload ∉ (perform_backup env).2 := by
  have hv : validate_config env.config = false := by
    rw [validate_config]
    simpa using h
  rw [perform_backup, hv]
  simp

/-- A configuration whose password (only) is empty, for the C8 witness
and counterexample. -/
def cfgMissingPassword : BackupConfig :=
  { neo4jPassword := "", r2AccountId := "acct", r2AccessKeyId := "ak",
    r2SecretAccessKey := "sk", r2BucketName := "bkt" }

/-- A backup environment using `cfgMissingPassword`. -/
def envMissingPassword : BackupEnv :=
  { config := cfgMissingPassword, r2Ok := true, exportOk := true,
    compressionEnabled := true, compressOk := true, uploadOk := true,
    sizeBytes := 10, backupName := "neo4j_2024-02-11_00-00-00" }

theorem perform_backup_invalid_config_witness :
    (perform_backup envMissingPassword).1.success = false ∧
    (perform_backup envMissingPassword).1.error =
      some "Configuration validation failed, aborting" :=
  ⟨(perform_backup_invalid_config envMissingPassword (by decide)).1,
   (perform_backup_invalid_config envMissingPassword (by decide)).2.1⟩

/-- Does `pat` occur as a contiguous subsequence? (Python `pat in s`.) -/
def containsSeq (pat : List Char) : List Char → Bool
  | [] => listStartsWith [] pat
  | c :: rest => listStartsWith (c :: rest) pat || containsSeq pat rest

/-- Counterexample to C8 as stated: with `NEO4J_PASSWORD` empty the
returned error is the fixed string `Configuration validation failed,
aborting`, which does not list (or even mention) the missing key. -/
theorem perform_backup_error_lists_no_keys :
    missingConfig envMissingPassword.config = ["NEO4J_PASSWORD"] ∧
    (perform_backup envMissingPassword).1.error =
      some "Configuration validation failed, aborting" ∧
    containsSeq ("NEO4J_PASSWORD".data)
      ("Configuration validation failed, aborting".data) = false := by
  refine ⟨by decide, by decide, by decide⟩

/-! ## Restore pipeline (backup.py `perform_restore`, lines 561-704, and
api.py `RestoreTaskController._run_restore`, lines 200-236)

Each external call is given an outcome: `ok`, `exn` (raises an
`Exception` subclass — for the download step specifically a
`ClientError`, the only class its handler catches) or `base` (raises a
`BaseException` that is not an `Exception`, e.g. `KeyboardInterrupt`,
which no handler catches). The settings file is threaded as
`Option Dict`; `now` stands for `datetime.now()`. Exception message
texts interpolated into error strings are abstracted to the fixed
message prefix. -/

inductive StepRes where
  | ok : StepRes
  | exn : StepRes
  | base : StepRes
deriving DecidableEq

structure RestoreResult where
  success : Bool
  backup_key : List Char
  statements_applied : Option Nat
  error : Option String
deriving DecidableEq

structure RestoreEnv where
  validateOk : Bool
  r2Ok : Bool
  downloadRes : StepRes
  gunzipRes : StepRes
  readRes : StepRes
  fileLines : List (List Char)
  driverRes : StepRes
  dropSchemaRes : StepRes
  execRes : Nat → StepRes
  tailEnv : BackupEnv

/-- One `update_runtime_state(...)` call: the store file afterwards. -/
def applyUpdate (store : Option Dict) (patch : Dict) (now : Nat) : Option Dict :=
  some (update_runtime_state store patch now).1

/-- A kwargs dict from a literal association list. -/
def patchOf (l : List (String × JValue)) : Dict := fun k => l.lookup k

/-- `local_download.suffix == '.gz'` on the sanitized key: the final path
component ends in `.gz` with a non-empty stem. -/
def suffixIsGz (path : List Char) : Bool :=
  let name := (splitOnChar '/' path).getLastD []
  listStartsWith name.reverse (".gz".data.reverse) && decide (3 < name.length)

/-- Python `x or 0` on the optional applied-statement count. -/
def orZero : Option Nat → Int
  | none => 0
  | some n => if n = 0 then 0 else (n : Int)

/-- `restoreStatementsApplied=result.statements_applied` as a JSON value. -/
def optNat : Option Nat → JValue
  | none => .null
  | some n => .num n

/-- `lastRestoreError=result.error` as a JSON value. -/
def optStr : Option String → JValue
  | none => .null
  | some s => .str s

inductive ReplayOut where
  | done : Nat → ReplayOut
  | exn : Nat → ReplayOut
  | base : Nat → ReplayOut

/-- The replay loop (lines 629-634): apply statements in order, counting
them, persisting `restoreProgress` after every 500th; stop at the first
raising statement. The statement index passed to `execRes` equals the
number applied so far. -/
def replayLoop (exec : Nat → StepRes) (now : Nat) :
    Nat → Nat → Option Dict → ReplayOut × Option Dict
  | 0, applied, store => (.done applied, store)
  | remaining + 1, applied, store =>
    match exec applied with
    | .ok =>
      let applied2 := applied + 1
      let store2 :=
        if applied2 % 500 = 0 then
          applyUpdate store (patchOf [("restoreProgress", .num applied2)]) now
        else store
      replayLoop exec now remaining applied2 store2
    | .exn => (.exn applied, store)
    | .base => (.base applied, store)

/-- Outcome of the `try` statement of `perform_restore` (lines 598-658):
it either returns a `RestoreResult` (from the try body or from the
`except Exception` handler), lets an uncatchable exception escape, or —
hypothetically — completes without returning, which would let control
fall through to the code after the block. -/
inductive TryOut where
  | ret : RestoreResult → TryOut
  | raisedOut : TryOut
  | fallthrough : TryOut

/-- The `except Exception` handler (lines 642-646): persist the progress
reached and return a failed result carrying it. -/
def restoreExceptBranch (backupKey : List Char) (now : Nat)
    (store : Option Dict) (applied : Nat) : TryOut × Option Dict :=
  let store2 := applyUpdate store (patchOf [("restoreProgress", .num applied)]) now
  (.ret { success := false, backup_key := backupKey,
          statements_applied := some applied, error := some "Restore failed" },
   store2)

/-- The `try` body (lines 598-640): optional decompression, driver
creation, statement load, state update to `replaying`, schema/data drop,
replay, final progress write and success result. -/
def restore_try_block (env : RestoreEnv) (backupKey : List Char) (now : Nat)
    (store : Option Dict) : TryOut × Option Dict :=
  match (if suffixIsGz (sanitize_backup_key backupKey) then env.gunzipRes else .ok) with
  | .base => (.raisedOut, store)
  | .exn => restoreExceptBranch backupKey now store 0
  | .ok =>
  match env.driverRes with
  | .base => (.raisedOut, store)
  | .exn => restoreExceptBranch backupKey now store 0
  | .ok =>
  match env.readRes with
  | .base => (.raisedOut, store)
  | .exn => restoreExceptBranch backupKey now store 0
  | .ok =>
    let stmts := load_statements env.fileLines
    let store2 := applyUpdate store (patchOf
      [("restorePhase", .str "replaying"),
       ("restoreTotalStatements", .num stmts.length),
       ("restoreProgress", .num 0)]) now
    match env.dropSchemaRes with
    | .base => (.raisedOut, store2)
    | .exn => restoreExceptBranch backupKey now store2 0
    | .ok =>
      match replayLoop env.execRes now stmts.length 0 store2 with
      | (.done applied, store3) =>
        let store4 := applyUpdate store3
          (patchOf [("restoreProgress", .num applied)]) now
        (.ret { success := true, backup_key := backupKey,
                statements_applied := some applied, error := none }, store4)
      | (.exn applied, store3) => restoreExceptBranch backupKey now store3 applied
      | (.base _, store3) => (.raisedOut, store3)

inductive RestoreOutcome where
  | ret : RestoreResult → RestoreOutcome
  | retBackup : BackupResult → RestoreOutcome
  | raised : RestoreOutcome

/-- Embedding of `perform_restore`: early validation returns, download
(its handler catches only `ClientError`; any other exception there
escapes), then the try/except/finally block; if the block ever completed
without returning, control would reach the leftover backup-pipeline code
at lines 660-704, which builds a `BackupResult`. -/
def perform_restore (env : RestoreEnv) (backupKey : List Char) (now : Nat)
    (store : Option Dict) : RestoreOutcome × Option Dict :=
  if !env.validateOk then
    (.ret { success := false, backup_key := backupKey, statements_applied := none,
            error := some "Configuration validation failed, aborting restore" },
     store)
  else if !env.r2Ok then
    (.ret { success := false, backup_key := backupKey, statements_applied := none,
            error := some "R2 connection verification failed, aborting restore" },
     store)
  else
    match env.downloadRes with
    | .base => (.raised, store)
    | .exn =>
      (.ret { success := false, backup_key := backupKey,
              statements_applied := none,
              error := some "Failed to download backup" }, store)
    | .ok =>
      let store1 := applyUpdate store (patchOf
        [("restorePhase", .str "clearing"), ("restoreProgress", .num 0)]) now
      match restore_try_block env backupKey now store1 with
      | (.ret r, st) => (.ret r, st)
      | (.raisedOut, st) => (.raised, st)
      | (.fallthrough, st) =>
        (.retBackup (perform_backup env.tailEnv).1, st)

/-- `RestoreTaskController._run_restore`: initial `running` state write,
the pipeline run, then the completion write. `none` models the worker
thread dying on an uncaught exception before the completion write. -/
def run_restore (env : RestoreEnv) (backupKey : List Char) (now : Nat)
    (store : Option Dict) : Option (RestoreResult × Option Dict) :=
  let store1 := applyUpdate store (patchOf
    [("lastRestoreStatus", .str "running"),
     ("restoreStartedAt", .str (isoformatMin now)),
     ("restoreCompletedAt", .null),
     ("lastRestoreId", .str (String.mk backupKey)),
     ("lastRestoreError", .null),
     ("restoreStatementsApplied", .null),
     ("restoreTotalStatements", .null),
     ("restorePhase", .str "downloading"),
     ("restoreProgress", .num 0)]) now
  match perform_restore env backupKey now store1 with
  | (.ret r, store2) =>
    let patch :=
      if r.success then
        patchOf
          [("lastRestoreStatus", .str "completed"),
           ("restoreCompletedAt", .str (isoformatMin now)),
           ("restoreStatementsApplied", optNat r.statements_applied),
           ("restorePhase", .str "completed"),
           ("restoreProgress", .num (orZero r.statements_applied))]
      else
        patchOf
          [("lastRestoreStatus", .str "failed"),
           ("restoreCompletedAt", .str (isoformatMin now)),
           ("lastRestoreError", optStr r.error),
           ("restoreStatementsApplied", optNat r.statements_applied),
           ("restorePhase", .str "failed"),
           ("restoreProgress", .num (orZero r.statements_applied))]
    some (r, applyUpdate store2 patch now)
  | (.retBackup _, _) => none
  | (.raised, _) => none

theorem restore_try_block_never_falls_through (env : RestoreEnv)
    (backupKey : List Char) (now : Nat) (store : Option Dict) :
    (restore_try_block env backupKey now store).1 ≠ TryOut.fallthrough := by
  unfold restore_try_block
  split
  · exact fun h => TryOut.noConfusion h
  · exact fun h => TryOut.noConfusion h
  · split
    · exact fun h => TryOut.noConfusion h
    · exact fun h => TryOut.noConfusion h
    · split
      · exact fun h => TryOut.noConfusion h
      · exact fun h => TryOut.noConfusion h
      · split
        · exact fun h => TryOut.noConfusion h
        · exact fun h => TryOut.noConfusion h
        · dsimp only
          split
          · exact fun h => TryOut.noConfusion h
          · exact fun h => TryOut.noConfusion h
          · exact fun h => TryOut.noConfusion h

/-- Claim C10: on every input and every modelled outcome,
`perform_restore` either returns a `RestoreResult` or propagates an
uncaught exception; it never returns a `BackupResult` — the leftover
backup-pipeline code after the try/except/finally block (lines 660-704)
is unreachable. -/
theorem perform_restore_never_backup_result (env : RestoreEnv)
    (backupKey : List Char) (now : Nat) (store : Option Dict) :
    (∃ r st, perform_restore env backupKey now store = (.ret r, st)) ∨
    (∃ st, perform_restore env backupKey now store = (.raised, st)) := by
  unfold perform_restore
  split
  · exact .inl ⟨_, _, rfl⟩
  · split
    · exact .inl ⟨_, _, rfl⟩
    · split
      · exact .inr ⟨_, rfl⟩
      · exact .inl ⟨_, _, rfl⟩
      · dsimp only
        split
        case _ r st heq => exact .inl ⟨_, _, rfl⟩
        case _ st heq => exact .inr ⟨_, rfl⟩
        case _ st heq =>
          exact absurd (congrArg Prod.fst heq)
            (restore_try_block_never_falls_through env backupKey now _)

theorem replayLoop_exn (exec : Nat → StepRes) (now : Nat) :
    ∀ (j remaining applied : Nat) (store : Option Dict),
      (∀ i, i < j → exec (applied + i) = .ok) → exec (applied + j) = .exn →
      j < remaining →
      ∃ store2, replayLoop exec now remaining applied store =
        (.exn (applied + j), store2) := by
  intro j
  induction j with
  | zero =>
    intro remaining applied store hok hexn hlt
    cases remaining with
    | zero => omega
    | succ m =>
      rw [Nat.add_zero] at hexn
      simp only [replayLoop, hexn]
      exact ⟨store, rfl⟩
  | succ k ih =>
    intro remaining applied store hok hexn hlt
    cases remaining with
    | zero => omega
    | succ m =>
      have h0 : exec applied = .ok := by
        have h00 := hok 0 (by omega)
        simpa using h00
      simp only [replayLoop, h0]
      have hok2 : ∀ i, i < k → exec (applied + 1 + i) = .ok := by
        intro i hi
        have h01 := hok (i + 1) (by omega)
        rwa [show applied + (i + 1) = applied + 1 + i by omega] at h01
      have hexn2 : exec (applied + 1 + k) = .exn := by
        rwa [show applied + (k + 1) = applied + 1 + k by omega] at hexn
      obtain ⟨s2, hs2⟩ := ih m (applied + 1) _ hok2 hexn2 (by omega)
      refine ⟨s2, ?_⟩
      rw [show applied + (k + 1) = applied + 1 + k by omega]
      exact hs2

theorem orZero_some (n : Nat) : orZero (some n) = (n : Int) := by
  by_cases h : n = 0
  · subst h; rfl
  · simp [orZero, h]

/-- Claim C6: a restore run that fails mid-replay after applying `n` of
its statements returns a failed result carrying `statementsApplied = n`,
and the persisted runtime state afterwards has `restorePhase = 'failed'`
and `restoreProgress = n` (nothing is rolled back). -/
theorem run_restore_failure_state (env : RestoreEnv) (key : List Char)
    (now : Nat) (store : Option Dict) (n : Nat)
    (h1 : env.validateOk = true) (h2 : env.r2Ok = true)
    (h3 : env.downloadRes = .ok) (h4 : env.gunzipRes = .ok)
    (h5 : env.driverRes = .ok) (h6 : env.readRes = .ok)
    (h7 : env.dropSchemaRes = .ok)
    (h8 : n < (load_statements env.fileLines).length)
    (h9 : ∀ i, i < n → env.execRes i = .ok)
    (h10 : env.execRes n = .exn) :
    ∃ r d, run_restore env key now store = some (r, some d) ∧
      r.success = false ∧ r.statements_applied = some n ∧
      d "restorePhase" = some (.str "failed") ∧
      d "restoreProgress" = some (.num n) := by
  have h9z : ∀ i, i < n → env.execRes (0 + i) = .ok := by
    intro i hi
    rw [Nat.zero_add]
    exact h9 i hi
  have h10z : env.execRes (0 + n) = .exn := by
    rw [Nat.zero_add]
    exact h10
  have hgz : (if suffixIsGz (sanitize_backup_key key) = true
      then env.gunzipRes else StepRes.ok) = StepRes.ok := by
    cases hsf : suffixIsGz (sanitize_backup_key key) <;> simp [h4]
  have htry : ∀ st : Option Dict, ∃ s3,
      restore_try_block env key now st =
        (.ret { success := false, backup_key := key,
                statements_applied := some n,
                error := some "Restore failed" }, s3) := by
    intro st
    unfold restore_try_block
    rw [hgz, h5, h6, h7]
    dsimp only
    obtain ⟨s2, hs2⟩ := replayLoop_exn env.execRes now n
      (load_statements env.fileLines).length 0 _ h9z h10z h8
    rw [Nat.zero_add] at hs2
    rw [hs2]
    exact ⟨_, rfl⟩
  have hperf : ∀ st : Option Dict, ∃ s4,
      perform_restore env key now st =
        (.ret { success := false, backup_key := key,
                statements_applied := some n,
                error := some "Restore failed" }, s4) := by
    intro st
    unfold perform_restore
    rw [h1, h2, h3]
    dsimp only
    obtain ⟨s3, hs3⟩ := htry (applyUpdate st (patchOf
      [("restorePhase", JValue.str "clearing"),
       ("restoreProgress", JValue.num 0)]) now)
    rw [hs3]
    exact ⟨s3, rfl⟩
  obtain ⟨s4, hs4⟩ := hperf (applyUpdate store (patchOf
    [("lastRestoreStatus", .str "running"),
     ("restoreStartedAt", .str (isoformatMin now)),
     ("restoreCompletedAt", .null),
     ("lastRestoreId", .str (String.mk key)),
     ("lastRestoreError", .null),
     ("restoreStatementsApplied", .null),
     ("restoreTotalStatements", .null),
     ("restorePhase", .str "downloading"),
     ("restoreProgress", .num 0)]) now)
  have hrun : run_restore env key now store =
      some ({ success := false, backup_key := key,
              statements_applied := some n, error := some "Restore failed" },
        some ((update_runtime_state s4 (patchOf
          [("lastRestoreStatus", .str "failed"),
           ("restoreCompletedAt", .str (isoformatMin now)),
           ("lastRestoreError", optStr (some "Restore failed")),
           ("restoreStatementsApplied", optNat (some n)),
           ("restorePhase", .str "failed"),
           ("restoreProgress", .num (orZero (some n)))]) now).1)) := by
    unfold run_restore
    dsimp only
    rw [hs4]
    rfl
  rw [orZero_some] at hrun
  exact ⟨_, _, hrun, rfl, rfl, rfl, rfl⟩

/-- A tail backup environment (only reachable through the dead code). -/
def idleTailEnv : BackupEnv :=
  { config := ⟨"pw", "acct", "ak", "sk", "bkt"⟩, r2Ok := true,
    exportOk := true, compressionEnabled := false, compressOk := true,
    uploadOk := true, sizeBytes := 0,
    backupName := "neo4j_1970-01-01_00-00-00" }

/-- A restore environment with a three-statement script whose second
statement (index 1) raises. -/
def sampleRestoreEnv : RestoreEnv :=
  { validateOk := true, r2Ok := true, downloadRes := .ok, gunzipRes := .ok,
    readRes := .ok,
    fileLines := ["CREATE (a);\n".data, "CREATE (b);\n".data,
                  "CREATE (c);\n".data],
    driverRes := .ok, dropSchemaRes := .ok,
    execRes := fun i => if i = 1 then .exn else .ok,
    tailEnv := idleTailEnv }

/-- The backup key used in the C6 witness. -/
def sampleRestoreKey : List Char := "neo4j-backup/db.cypher".data

theorem run_restore_failure_state_witness :
    ∃ r d, run_restore sampleRestoreEnv sampleRestoreKey 0 none = some (r, some d) ∧
      r.success = false ∧ r.statements_applied = some 1 ∧
      d "restorePhase" = some (.str "failed") ∧
      d "restoreProgress" = some (.num 1) :=
  run_restore_failure_state sampleRestoreEnv sampleRestoreKey 0 none 1
    rfl rfl rfl rfl rfl rfl rfl
    (by decide)
    (by
      intro i hi
      have h0 : i = 0 := by omega
      rw [h0]
      rfl)
    rfl

end Neo4jBackup
